import Mathlib

/-!
# Verification of the MatLogicProto client view-model layer

Shallow embedding of `src/frontend/src/App.tsx`: the backend entity model
(users, graphs, nodes, edges), the graph-selection projection into the canvas
view model, optimistic edge creation, bulk load, cascade deletion, the
localStorage position-map persistence (including a concrete model of
`JSON.stringify` / `JSON.parse` on position maps), search, technique drafts,
and the grid "group nodes" layout.

Conventions:
* Backend ids are JavaScript numbers; in this code base they are always
  non-negative integers, embedded as `Nat`.  JavaScript truthiness on a
  number (`!x`) is `x = 0`; on a nullable value it is `none`.
* `fetch` and the backend are external collaborators: each network
  interaction is a parameter (an outcome value) of the function that awaits
  it.  `res.ok` is `200 ≤ status ≤ 299`.
* React `useState` cells become fields of explicit state records; an event
  handler is a function from the old state (plus its request outcomes) to
  the new state.
* Canvas coordinates are embedded as `Int` (the idealised JS number for the
  structural round-trip properties at issue; no claim here depends on
  fractional coordinates).
-/

namespace MatLogic

/-- `type User` (App.tsx lines 21-25). -/
structure User where
  id : Nat
  name : String
  email : String
deriving DecidableEq

/-- `type Graph` (App.tsx lines 43-47). -/
structure Graph where
  id : Nat
  title : String
  user_id : Nat
deriving DecidableEq

/-- `type NodeT` (App.tsx lines 49-53): a technique node owned by a graph. -/
structure NodeT where
  id : Nat
  name : String
  graph_id : Nat
deriving DecidableEq

/-- `type EdgeTypeT = "positive" | "neutral" | "negative"` (App.tsx line 55). -/
inductive EdgeTypeT where
  | positive
  | neutral
  | negative
deriving DecidableEq

/-- `type EdgeT` (App.tsx lines 57-63); `label?: string | null` becomes
`Option String`. -/
structure EdgeT where
  id : Nat
  from_node_id : Nat
  to_node_id : Nat
  edge_type : EdgeTypeT
  label : Option String := none
deriving DecidableEq

/-- `type TechniqueDraft` (App.tsx lines 65-69). -/
structure TechniqueDraft where
  videoUrl : String
  steps : String
  updatedAt : Nat
deriving DecidableEq

/-- `edgeStroke` (App.tsx lines 263-267). -/
def edgeStroke (type : EdgeTypeT) : String :=
  if type = .positive then "#16a34a"
  else if type = .neutral then "#1f307cff"
  else "#dc2626"

/-- `nextEdgeType` (App.tsx lines 269-273): cycles the tri-state edge
classification. -/
def nextEdgeType (type : EdgeTypeT) : EdgeTypeT :=
  if type = .positive then .neutral
  else if type = .neutral then .negative
  else .positive

/-- JavaScript truthiness of a nullable string (`!s` is true exactly on
`null`/`undefined` and `""`). -/
def truthyStr (s : Option String) : Bool :=
  match s with
  | none => false
  | some s => !(s == "")

/-- `graphNodes` (App.tsx lines 481-484): the backend node list filtered to
the selected graph.  `!selectedGraphId` is truthy JS-falsiness: `null` or
`0`. -/
def graphNodes (nodes : List NodeT) (selectedGraphId : Option Nat) : List NodeT :=
  match selectedGraphId with
  | none => []
  | some g => if g = 0 then [] else nodes.filter (fun n => n.graph_id == g)

/-- `graphEdges` (App.tsx lines 487-491): edges whose two endpoints both lie
in the selected graph's node set (the `Set` of ids becomes list
membership). -/
def graphEdges (nodes : List NodeT) (edges : List EdgeT)
    (selectedGraphId : Option Nat) : List EdgeT :=
  match selectedGraphId with
  | none => []
  | some g =>
    if g = 0 then []
    else
      let nodeIds := (graphNodes nodes (some g)).map (fun n => n.id)
      edges.filter (fun e => nodeIds.contains e.from_node_id && nodeIds.contains e.to_node_id)

/-- `s.toLowerCase()` on the ASCII strings this app handles. -/
def lowerStr (s : String) : String :=
  String.mk (s.data.map Char.toLower)

/-- `s.trim()`: strip leading and trailing whitespace. -/
def trimChars (cs : List Char) : List Char :=
  ((cs.dropWhile Char.isWhitespace).reverse.dropWhile Char.isWhitespace).reverse

/-- `s.trim()` on strings. -/
def trimStr (s : String) : String :=
  String.mk (trimChars s.data)

/-- `hay.includes(needle)`: substring containment on the underlying character
lists. -/
def containsSub (hay needle : List Char) : Bool :=
  hay.tails.any (fun t => needle.isPrefixOf t)

/-- `searchResults` (App.tsx lines 493-497): trim and lowercase the query;
an empty (falsy) query yields no results, otherwise case-insensitive
substring filtering over the active graph's nodes, capped by
`slice(0, 12)`. -/
def searchResults (searchQuery : String) (gnodes : List NodeT) : List NodeT :=
  let q := lowerStr (trimStr searchQuery)
  if q = "" then []
  else (gnodes.filter (fun n => containsSub (lowerStr n.name).data q.data)).take 12

/-- `matchingNodeIds` (App.tsx lines 499-503): ids of the active graph's
nodes matching the query (uncapped). -/
def matchingNodeIds (searchQuery : String) (gnodes : List NodeT) : List Nat :=
  let q := lowerStr (trimStr searchQuery)
  if q = "" then []
  else (gnodes.filter (fun n => containsSub (lowerStr n.name).data q.data)).map (fun n => n.id)

/-- Outcome of the `fetch` in `loadTechniqueDraft`: either the promise
rejected, or the server replied with a status and a JSON body whose
`video_url` / `steps` fields may be absent/null (`Option`). -/
inductive TechFetchOutcome where
  | netError
  | reply (status : Nat) (video_url : Option String) (steps : Option String)

/-- `res.ok`: HTTP status in the 200-299 range. -/
def statusOk (status : Nat) : Bool :=
  200 ≤ status && status ≤ 299

/-- `loadTechniqueDraft` (App.tsx lines 150-165): a non-ok response
(including 404) or a thrown fetch yields the empty default draft; an ok
response carries the server's fields, with `|| ""` collapsing null to the
empty string.  `Date.now()` is the explicit `now` parameter. -/
def loadTechniqueDraft (now : Nat) (outcome : TechFetchOutcome) : TechniqueDraft :=
  match outcome with
  | .netError => { videoUrl := "", steps := "", updatedAt := now }
  | .reply status video_url steps =>
    if statusOk status then
      { videoUrl := video_url.getD "", steps := steps.getD "", updatedAt := now }
    else
      { videoUrl := "", steps := "", updatedAt := now }

/-! ## localStorage and the position map

`localStorage` is a string-keyed string store; `setItem` overwrites, and
`getItem` returns the most recent value (modelled by prepending and taking
the first match).  The quota/security exceptions that the source guards
with `try`/`catch` are environment failures outside the store model.

A position map (`type PosMap = Record<string, \x7bx,y\x7d>`, App.tsx line 128)
maps `String(node.id)` — always the decimal rendering of a numeric node
id — to a coordinate pair; it is embedded as an association list keyed by
the node id itself.  `JSON.stringify` / `JSON.parse` on these values are
modelled concretely: a decimal printer and a recursive-descent parser over
the exact grammar `JSON.stringify` emits for such records. -/

/-- A coordinate pair `{ x, y }`. -/
structure Pos where
  x : Int
  y : Int
deriving DecidableEq

/-- `type PosMap` (App.tsx line 128), keyed by the numeric node id whose
decimal rendering is the JS object key. -/
abbrev PosMap := List (Nat × Pos)

/-- The browser `localStorage`. -/
abbrev Store := List (String × String)

/-- `localStorage.getItem`. -/
def storeGet (store : Store) (key : String) : Option String :=
  (store.find? (fun kv => kv.1 == key)).map (fun kv => kv.2)

/-- `localStorage.setItem` (overwrite = shadow earlier bindings). -/
def storeSet (store : Store) (key value : String) : Store :=
  (key, value) :: store

/-- `posKey` (App.tsx lines 125-127). -/
def posKey (graphId : Nat) : String :=
  "matlogic:positions:" ++ toString graphId

/-- The decimal digit character for `d < 10`. -/
def digitChar (d : Nat) : Char :=
  Char.ofNat (48 + d)

/-- The numeric value of a decimal digit character. -/
def charVal (c : Char) : Nat :=
  c.toNat - 48

/-- Decimal rendering of a natural number (`JSON.stringify` on a
non-negative integral JS number), most significant digit first. -/
def printNatChars (n : Nat) : List Char :=
  if n = 0 then ['0'] else (Nat.digits 10 n).reverse.map digitChar

/-- Decimal rendering of an integral JS number. -/
def printIntChars (i : Int) : List Char :=
  if i < 0 then '-' :: printNatChars i.natAbs else printNatChars i.toNat

/-- Lex one decimal numeral: the maximal leading digit run, which must be
non-empty. -/
def parseNatTok (cs : List Char) : Option (Nat × List Char) :=
  let ds := cs.takeWhile Char.isDigit
  if ds.isEmpty then none
  else some (ds.foldl (fun a c => a * 10 + charVal c) 0, cs.dropWhile Char.isDigit)

/-- Lex one optionally-signed decimal numeral. -/
def parseIntTok (cs : List Char) : Option (Int × List Char) :=
  match cs with
  | [] => none
  | c :: rest =>
    if c = '-' then (parseNatTok rest).map (fun p => (-(p.1 : Int), p.2))
    else (parseNatTok (c :: rest)).map (fun p => ((p.1 : Int), p.2))

/-- `JSON.stringify` of one position-map entry:
`"<id>":{"x":<x>,"y":<y>}` (object keys in insertion order `x`, `y`, as
built by `persistPositions`). -/
def printEntryChars (k : Nat) (p : Pos) : List Char :=
  '"' :: (printNatChars k ++
    ('"' :: ':' :: '{' :: '"' :: 'x' :: '"' :: ':' ::
      (printIntChars p.x ++
        (',' :: '"' :: 'y' :: '"' :: ':' ::
          (printIntChars p.y ++ ['}'])))))

/-- Parse one position-map entry (the exact shape `printEntryChars`
emits). -/
def parseEntry (cs : List Char) : Option ((Nat × Pos) × List Char) :=
  match cs with
  | '"' :: cs1 =>
    match parseNatTok cs1 with
    | some (k, '"' :: ':' :: '{' :: '"' :: 'x' :: '"' :: ':' :: cs2) =>
      match parseIntTok cs2 with
      | some (x, ',' :: '"' :: 'y' :: '"' :: ':' :: cs3) =>
        match parseIntTok cs3 with
        | some (y, '}' :: cs4) => some ((k, ⟨x, y⟩), cs4)
        | _ => none
      | _ => none
    | _ => none
  | _ => none

/-- The comma-separated entry list of a stringified position map. -/
def printEntriesChars : PosMap → List Char
  | [] => []
  | [e] => printEntryChars e.1 e.2
  | e :: es => printEntryChars e.1 e.2 ++ (',' :: printEntriesChars es)

/-- Parse a non-empty comma-separated entry list up to the closing `\x7d`;
`fuel` bounds the number of entries (each consumes at least one
character). -/
def parseEntriesAux : Nat → List Char → Option (PosMap × List Char)
  | 0, _ => none
  | fuel + 1, cs =>
    match parseEntry cs with
    | none => none
    | some (e, rest) =>
      match rest with
      | '}' :: rest2 => some ([e], rest2)
      | ',' :: rest2 =>
        match parseEntriesAux fuel rest2 with
        | none => none
        | some (es, rest3) => some (e :: es, rest3)
      | _ => none

/-- `JSON.stringify` on a position map. -/
def stringifyPosMap (m : PosMap) : String :=
  String.mk ('{' :: (printEntriesChars m ++ ['}']))

/-- `JSON.parse` on a stored position-map string: `none` models a thrown
`SyntaxError` (or a value of the wrong shape). -/
def parsePosMapChars (cs : List Char) : Option PosMap :=
  match cs with
  | '{' :: rest =>
    if rest = ['}'] then some []
    else
      match parseEntriesAux rest.length rest with
      | some (m, []) => some m
      | _ => none
  | _ => none

/-- `JSON.parse` on a stored position-map string. -/
def parsePosMap (s : String) : Option PosMap :=
  parsePosMapChars s.data

/-- `loadPositions` (App.tsx lines 131-139): a missing key or a parse
failure yields the empty map (the `catch` branch). -/
def loadPositions (graphId : Nat) (store : Store) : PosMap :=
  match storeGet store (posKey graphId) with
  | none => []
  | some raw =>
    match parsePosMap raw with
    | none => []
    | some m => m

/-- `savePositions` (App.tsx lines 142-147). -/
def savePositions (graphId : Nat) (map : PosMap) (store : Store) : Store :=
  storeSet store (posKey graphId) (stringifyPosMap map)

/-! ## View model, bulk load, optimistic edge creation, deletion, grouping

React Flow is an external library.  Its node/edge records are embedded with
exactly the fields this app reads and writes; node ids on the canvas are
always `String(node.id)` of a backend id and are embedded as the number
itself, while edge ids may also be a library-generated provisional string
(`addEdge` during optimistic creation), so they stay `String`. -/

/-- The React Flow node record as this app builds it (App.tsx lines
515-526, 811-823): id, label and position (`dimmed`/`highlighted` flags
elided; no claim concerns them).  The nondeterministic `Math.random()`
fallback placement is outside the functions modelled here. -/
structure RFNodeM where
  id : Nat
  label : String
  x : Int
  y : Int
deriving DecidableEq

/-- The React Flow edge record as this app builds it (App.tsx lines
528-545): id, endpoints, label, stroke colour and the dimming flag
(`opacity 0.15` vs `1`). -/
structure RFEdgeM where
  id : String
  source : Nat
  target : Nat
  label : String
  stroke : String
  dimmed : Bool
deriving DecidableEq

/-- A React Flow `Connection`: nullable source/target node ids.  The ids are
`String(node.id)` and hence never the empty string, so JS truthiness of the
id string is just non-nullness. -/
structure Connection where
  source : Option Nat
  target : Option Nat

/-- The four backend collections a successful bulk load returns. -/
structure ServerData where
  users : List User
  graphs : List Graph
  nodes : List NodeT
  edges : List EdgeT

/-- The `useState` cells of `App` that the claims concern (App.tsx lines
276-310): the entity caches, the two selections, the error banner and the
canvas edge list. -/
structure AppState where
  users : List User
  graphs : List Graph
  nodes : List NodeT
  edges : List EdgeT
  selectedUserId : Option Nat
  selectedGraphId : Option Nat
  error : Option String
  rfEdges : List RFEdgeM
deriving DecidableEq

/-- `loadAll` (App.tsx lines 400-422).  `reload` is the outcome of the
awaited `Promise.all` over the four collection fetches: `none` means some
request (or its `.json()`) rejected, in which case the `catch` sets the
single generic message and none of the four `set*` calls has run; `some d`
carries the four parsed collections, applied together with the
first-user/first-graph selection defaults.  `setError(null)` runs first in
either case. -/
def applyLoadAll (authToken : Option String) (reload : Option ServerData)
    (st : AppState) : AppState :=
  let st0 := { st with error := none }
  if !truthyStr authToken then st0
  else
    match reload with
    | none => { st0 with error := some "Failed to load data from backend" }
    | some d =>
      let st1 := { st0 with
        users := d.users, graphs := d.graphs, nodes := d.nodes, edges := d.edges }
      let st2 :=
        if d.users.length > 0 && st1.selectedUserId.isNone then
          { st1 with selectedUserId := some (d.users.headD ⟨0, "", ""⟩).id }
        else st1
      if d.graphs.length > 0 && st2.selectedGraphId.isNone then
        { st2 with selectedGraphId := some (d.graphs.headD ⟨0, "", 0⟩).id }
      else st2

/-- The provisional edge id React Flow's `addEdge` generates for a new
connection (modelled from the library: `reactflow__edge-` plus the endpoint
ids; never the decimal rendering of a backend id). -/
def provEdgeId (s t : Nat) : String :=
  "reactflow__edge-" ++ toString s ++ "-" ++ toString t

/-- React Flow's `addEdge` as used at App.tsx lines 630-639 (external
library, modelled): append an edge for the connection with a provisional
id, the `positive` stroke and no label. -/
def addEdgeModel (c : Connection) (eds : List RFEdgeM) : List RFEdgeM :=
  match c.source, c.target with
  | some s, some t =>
    eds ++ [{ id := provEdgeId s t, source := s, target := t, label := "",
              stroke := edgeStroke .positive, dimmed := false }]
  | _, _ => eds

/-- The projection of a confirmed backend edge into a React Flow edge
(App.tsx lines 528-545 and 665-675). -/
def projectEdge (matching : List Nat) (e : EdgeT) : RFEdgeM :=
  { id := toString e.id
    source := e.from_node_id
    target := e.to_node_id
    label := e.label.getD ""
    stroke := edgeStroke e.edge_type
    dimmed := !matching.isEmpty &&
      (!matching.contains e.from_node_id || !matching.contains e.to_node_id) }

/-- The edge half of the view-model rebuild effect (App.tsx lines 506-549):
whenever selection or the entity caches change, the canvas edge list is
recomputed from `graphEdges` alone (the node half, which also draws on the
random placement fallback, is not consumed by any claim). -/
def rebuildRfEdges (selectedGraphId : Option Nat) (nodes : List NodeT)
    (edges : List EdgeT) (searchQuery : String) : List RFEdgeM :=
  match selectedGraphId with
  | none => []
  | some g =>
    if g = 0 then []
    else
      (graphEdges nodes edges (some g)).map
        (projectEdge (matchingNodeIds searchQuery (graphNodes nodes (some g))))

/-- Outcome of the `POST /edges/` fetch in `onConnect`: rejection, or a
reply with a status, the text body read on failure, and the `EdgeT` the
body parses to on success. -/
inductive PostOutcome where
  | netError
  | reply (status : Nat) (body : String) (created : EdgeT)

/-- `onConnect` (App.tsx lines 617-682).  The handler clears the error
banner, requires a token and both endpoints, optimistically adds the
provisional edge via `addEdge`, and then settles the POST: on a non-ok
status it awaits `loadAll` (outcome `reload`) and sets the 409-specific or
generic message; on rejection it awaits `loadAll` and sets the network
message; on success it appends the created edge to the entity cache and
replaces the provisional canvas edge (matched by source/target) with the
server-keyed projection. -/
def onConnect (authToken : Option String) (reload : Option ServerData)
    (st : AppState) (c : Connection) (outcome : PostOutcome) : AppState :=
  let st0 := { st with error := none }
  if !truthyStr authToken then { st0 with error := some "Not authenticated." }
  else
    match c.source, c.target with
    | some s, some t =>
      let st1 := { st0 with rfEdges := addEdgeModel c st0.rfEdges }
      match outcome with
      | .netError =>
        { applyLoadAll authToken reload st1 with
          error := some "Failed to create edge (network error)" }
      | .reply status body created =>
        if statusOk status then
          { st1 with
            edges := st1.edges ++ [created]
            rfEdges :=
              (st1.rfEdges.filter (fun e => !(e.source == s && e.target == t))) ++
                [projectEdge [] created] }
        else
          { applyLoadAll authToken reload st1 with
            error := some (if status = 409 then "That edge already exists."
              else "Failed to create edge (" ++ toString status ++ "): " ++ body) }
    | _, _ => st0

/-- Per-request outcome of one `DELETE` fetch: the promise resolved with
some HTTP status, or rejected (network failure). -/
inductive ReqResult where
  | resolved (status : Nat)
  | netError
deriving DecidableEq

/-- Whether a request outcome is a rejection. -/
def ReqResult.isNetError : ReqResult → Bool
  | .netError => true
  | .resolved _ => false

/-- The node/edge entity caches that deletion prunes. -/
structure LocalGraphState where
  nodes : List NodeT
  edges : List EdgeT
deriving DecidableEq

/-- `deleteNodesById` (App.tsx lines 430-437) with `results` the outcomes of
the per-id `DELETE` fetches.  An empty id set returns before any request.
If every request resolves (with any status — the statuses are never read),
the two `set*` calls prune nodes in the id set and edges touching it; if
any request rejects, `await Promise.all` throws, the pruning is skipped
(state unchanged) and the caller's `catch` reports it (`threw`). -/
def deleteNodesById (ids : List Nat) (results : List ReqResult)
    (st : LocalGraphState) : LocalGraphState × Bool :=
  if ids.isEmpty then (st, false)
  else if results.any (fun r => r.isNetError) then (st, true)
  else
    ({ edges := st.edges.filter
         (fun e => !ids.contains e.from_node_id && !ids.contains e.to_node_id)
       nodes := st.nodes.filter (fun n => !ids.contains n.id) }, false)

/-- `persistPositions` (App.tsx lines 552-562): build the position map from
the canvas nodes (object assignment in list order) and save it for the
selected graph.  Inside `groupNodesCenter` the selection is already
truthy. -/
def posMapOf (ns : List RFNodeM) : PosMap :=
  ns.map (fun n => (n.id, ⟨n.x, n.y⟩))

/-- `Math.ceil(Math.sqrt(n))` on a natural node count (exact for every
count a canvas can hold: `Math.sqrt` is correctly rounded and `n` is far
below the double-precision grid where a non-square could round to an
integer). -/
def ceilSqrt (n : Nat) : Nat :=
  if Nat.sqrt n * Nat.sqrt n = n then Nat.sqrt n else Nat.sqrt n + 1

/-- `groupNodesCenter` (App.tsx lines 830-865): with a truthy selection and
a non-empty canvas, move node `i` to
`(200 + (i % cols) * 120, 200 + (i / cols) * 120)` with
`cols = ceil(sqrt n)`, and persist the resulting map immediately through
`persistPositions` → `savePositions` (no debounce timer is involved; the
trailing `fitView` only pans the viewport). -/
def groupNodesCenter (selectedGraphId : Option Nat) (rfNodes : List RFNodeM)
    (store : Store) : List RFNodeM × Store :=
  match selectedGraphId with
  | none => (rfNodes, store)
  | some g =>
    if g = 0 || rfNodes.isEmpty then (rfNodes, store)
    else
      let cols := ceilSqrt rfNodes.length
      let updatedNodes := rfNodes.enum.map (fun ie =>
        { ie.2 with
          x := 200 + ((ie.1 % cols : Nat) : Int) * 120
          y := 200 + ((ie.1 / cols : Nat) : Int) * 120 })
      (updatedNodes, savePositions g (posMapOf updatedNodes) store)

/-! ## Theorems -/

/-- A lowercased string is empty exactly when the original is. -/
theorem lowerStr_eq_empty_iff (s : String) : lowerStr s = "" ↔ s = "" := by
  constructor
  · intro h
    have hd : (lowerStr s).data = [] := by rw [h]
    have hs : s.data = [] := by simpa [lowerStr] using hd
    exact String.ext (by simp [hs])
  · intro h
    subst h
    rfl

/-- C9: `nextEdgeType` is a fixed-point-free 3-cycle on the tri-state edge
classification: one application changes the type, three applications
restore it (so three double-clicks restore an edge's original
classification). -/
theorem nextEdgeType_is_three_cycle (t : EdgeTypeT) :
    nextEdgeType t ≠ t ∧ nextEdgeType (nextEdgeType (nextEdgeType t)) = t := by
  cases t <;> exact ⟨by decide, by decide⟩

/-- C8: `loadTechniqueDraft` on a missing technique record (404 reply)
returns the default draft with empty `videoUrl` and empty `steps` instead
of an error; on an existing record (ok reply) the draft carries the
server's `video_url` and `steps` fields. -/
theorem loadTechniqueDraft_missing_and_present (now : Nat) (a b : Option String)
    (v s : String) :
    loadTechniqueDraft now (.reply 404 a b) =
      { videoUrl := "", steps := "", updatedAt := now } ∧
    loadTechniqueDraft now (.reply 200 (some v) (some s)) =
      { videoUrl := v, steps := s, updatedAt := now } := by
  constructor
  · simp [loadTechniqueDraft, statusOk]
  · simp [loadTechniqueDraft, statusOk, Option.getD]

/-- C7: the search result list is the active graph's node list filtered by
case-insensitive substring containment of the trimmed query, in original
order (a sublist), capped at 12; an empty or whitespace-only (trimmed
empty) query yields no results. -/
theorem searchResults_filter_take (q : String) (gnodes : List NodeT) :
    (trimStr q = "" → searchResults q gnodes = []) ∧
    (trimStr q ≠ "" →
      searchResults q gnodes =
        (gnodes.filter (fun n =>
          containsSub (lowerStr n.name).data (lowerStr (trimStr q)).data)).take 12) ∧
    (searchResults q gnodes).length ≤ 12 ∧
    (searchResults q gnodes).Sublist gnodes := by
  refine ⟨fun h => ?_, fun h => ?_, ?_, ?_⟩
  · simp [searchResults, h, lowerStr]
  · rw [searchResults]
    exact if_neg (fun hq => h ((lowerStr_eq_empty_iff _).mp hq))
  · rw [searchResults]
    split
    · simp
    · exact List.length_take_le 12 _
  · rw [searchResults]
    split
    · simp
    · exact (List.take_sublist _ _).trans (List.filter_sublist _)

/-- C7 witness: the spec's own example, query `"ARM "` (case and
whitespace) against Armbar/Kimura/Armdrag. -/
theorem searchResults_filter_take_witness :
    searchResults "ARM "
        [⟨1, "Armbar", 1⟩, ⟨2, "Kimura", 1⟩, ⟨3, "Armdrag", 1⟩] =
      [⟨1, "Armbar", 1⟩, ⟨3, "Armdrag", 1⟩] := by
  rw [(searchResults_filter_take "ARM "
    [⟨1, "Armbar", 1⟩, ⟨2, "Kimura", 1⟩, ⟨3, "Armdrag", 1⟩]).2.1 (by decide)]
  decide

/-- C1: for a selected graph `G`, the projected node set is exactly the
backend node list filtered by `graph_id = G`, and an edge is projected
exactly when it is a backend edge with both endpoints inside that filtered
node set — so a cross-graph edge is never rendered. -/
theorem graph_projection_filters (nodes : List NodeT) (edges : List EdgeT)
    (g : Nat) (hg : g ≠ 0) :
    (∀ n, n ∈ graphNodes nodes (some g) ↔ n ∈ nodes ∧ n.graph_id = g) ∧
    (∀ e, e ∈ graphEdges nodes edges (some g) ↔
      e ∈ edges ∧
        (∃ n ∈ graphNodes nodes (some g), n.id = e.from_node_id) ∧
        (∃ n ∈ graphNodes nodes (some g), n.id = e.to_node_id)) := by
  constructor
  · intro n
    simp [graphNodes, hg, List.mem_filter]
  · intro e
    simp only [graphEdges]
    rw [if_neg hg]
    simp [List.mem_filter, List.contains_eq_any_beq, List.any_eq_true, List.mem_map]

/-- C1 witness: with graph 1 selected over two graphs, the in-graph edge
1→2 is rendered and the cross-graph edge 2→3 is not. -/
theorem graph_projection_filters_witness :
    (⟨10, 1, 2, .positive, none⟩ : EdgeT) ∈
      graphEdges [⟨1, "A", 1⟩, ⟨2, "B", 1⟩, ⟨3, "C", 2⟩]
        [⟨10, 1, 2, .positive, none⟩, ⟨11, 2, 3, .positive, none⟩] (some 1) ∧
    ¬ (⟨11, 2, 3, .positive, none⟩ : EdgeT) ∈
      graphEdges [⟨1, "A", 1⟩, ⟨2, "B", 1⟩, ⟨3, "C", 2⟩]
        [⟨10, 1, 2, .positive, none⟩, ⟨11, 2, 3, .positive, none⟩] (some 1) := by
  have h := graph_projection_filters [⟨1, "A", 1⟩, ⟨2, "B", 1⟩, ⟨3, "C", 2⟩]
    [⟨10, 1, 2, .positive, none⟩, ⟨11, 2, 3, .positive, none⟩] 1 (by decide)
  constructor
  · exact (h.2 _).mpr (by decide)
  · intro hmem
    exact absurd ((h.2 _).mp hmem) (by decide)

/-- C3: a bulk load whose `Promise.all` rejects (any of the four collection
requests failing) leaves every prior collection — and the selections and
canvas — unchanged and surfaces exactly the single generic load-failure
message. -/
theorem loadAll_rejection_preserves_state (st : AppState) (tok : String)
    (htok : tok ≠ "") :
    ((applyLoadAll (some tok) none st).users,
     (applyLoadAll (some tok) none st).graphs,
     (applyLoadAll (some tok) none st).nodes,
     (applyLoadAll (some tok) none st).edges) =
       (st.users, st.graphs, st.nodes, st.edges) ∧
    ((applyLoadAll (some tok) none st).selectedUserId,
     (applyLoadAll (some tok) none st).selectedGraphId,
     (applyLoadAll (some tok) none st).rfEdges) =
       (st.selectedUserId, st.selectedGraphId, st.rfEdges) ∧
    (applyLoadAll (some tok) none st).error =
      some "Failed to load data from backend" := by
  simp [applyLoadAll, truthyStr, htok]

/-- C3 witness: a concrete prior state survives a rejected bulk load
untouched, with the generic message in the banner. -/
theorem loadAll_rejection_preserves_state_witness :
    ((applyLoadAll (some "tok") none
        ⟨[⟨1, "u", "e"⟩], [⟨2, "g", 1⟩], [⟨3, "n", 2⟩], [⟨4, 3, 3, .positive, none⟩],
          some 1, some 2, some "old error", []⟩).users,
     (applyLoadAll (some "tok") none
        ⟨[⟨1, "u", "e"⟩], [⟨2, "g", 1⟩], [⟨3, "n", 2⟩], [⟨4, 3, 3, .positive, none⟩],
          some 1, some 2, some "old error", []⟩).graphs,
     (applyLoadAll (some "tok") none
        ⟨[⟨1, "u", "e"⟩], [⟨2, "g", 1⟩], [⟨3, "n", 2⟩], [⟨4, 3, 3, .positive, none⟩],
          some 1, some 2, some "old error", []⟩).nodes,
     (applyLoadAll (some "tok") none
        ⟨[⟨1, "u", "e"⟩], [⟨2, "g", 1⟩], [⟨3, "n", 2⟩], [⟨4, 3, 3, .positive, none⟩],
          some 1, some 2, some "old error", []⟩).edges) =
      ([⟨1, "u", "e"⟩], [⟨2, "g", 1⟩], [⟨3, "n", 2⟩], [⟨4, 3, 3, .positive, none⟩]) ∧
    (applyLoadAll (some "tok") none
        ⟨[⟨1, "u", "e"⟩], [⟨2, "g", 1⟩], [⟨3, "n", 2⟩], [⟨4, 3, 3, .positive, none⟩],
          some 1, some 2, some "old error", []⟩).error =
      some "Failed to load data from backend" := by
  have h := loadAll_rejection_preserves_state
    ⟨[⟨1, "u", "e"⟩], [⟨2, "g", 1⟩], [⟨3, "n", 2⟩], [⟨4, 3, 3, .positive, none⟩],
      some 1, some 2, some "old error", []⟩ "tok" (by decide)
  exact ⟨h.1, h.2.2⟩

/-- C10: `loadPositions` is total: a missing key, or a stored value that
fails to parse, yields the empty map instead of a propagated exception
(totality of the Lean function is the no-throw guarantee; both fallback
branches are the `return \x7b\x7d` of the source). -/
theorem loadPositions_total (g : Nat) (store : Store) :
    (storeGet store (posKey g) = none → loadPositions g store = []) ∧
    (∀ raw, storeGet store (posKey g) = some raw → parsePosMap raw = none →
      loadPositions g store = []) := by
  constructor
  · intro h
    simp [loadPositions, h]
  · intro raw h hp
    simp [loadPositions, h, hp]

/-- C10 witness: unparsable stored bytes under graph 1's key, and no stored
value at all under graph 2's key, both load as the empty map. -/
theorem loadPositions_total_witness :
    loadPositions 1 [("matlogic:positions:1", "garbage")] = [] ∧
    loadPositions 2 [("matlogic:positions:1", "garbage")] = [] := by
  constructor
  · exact (loadPositions_total 1 [("matlogic:positions:1", "garbage")]).2
      "garbage" (by decide) (by decide)
  · exact (loadPositions_total 2 [("matlogic:positions:1", "garbage")]).1 (by decide)

/-- C4 counterexample: the claim as stated fails when a delete request
rejects at the network level.  With id set `[1]` and the single request
rejecting, `await Promise.all` throws, the pruning `set*` calls are
skipped, and node 1 — whose id is in the set — is still in local state
after the requests settled. -/
theorem deleteNodesById_reject_keeps_node :
    (deleteNodesById [1] [ReqResult.netError] ⟨[⟨1, "A", 1⟩], []⟩).1.nodes =
      [⟨1, "A", 1⟩] ∧
    (deleteNodesById [1] [ReqResult.netError] ⟨[⟨1, "A", 1⟩], []⟩).2 = true ∧
    (1 : Nat) ∈ [1] := by
  refine ⟨by decide, by decide, by decide⟩

/-- C4 (amended): for a non-empty id set, when every per-id delete request
resolves with an HTTP response — any status, success or failure alike —
the settled handler prunes exactly the nodes whose id is in the set and
every edge with an endpoint in the set, keeping all others; nothing is
thrown. -/
theorem deleteNodesById_cascade (ids : List Nat) (results : List ReqResult)
    (st : LocalGraphState) (hne : ids ≠ [])
    (hres : ∀ r ∈ results, r.isNetError = false) :
    (deleteNodesById ids results st).2 = false ∧
    (∀ n, n ∈ (deleteNodesById ids results st).1.nodes ↔
      n ∈ st.nodes ∧ n.id ∉ ids) ∧
    (∀ e, e ∈ (deleteNodesById ids results st).1.edges ↔
      e ∈ st.edges ∧ e.from_node_id ∉ ids ∧ e.to_node_id ∉ ids) := by
  have hids : ids.isEmpty = false := by
    cases ids with
    | nil => exact absurd rfl hne
    | cons a l => rfl
  have hany : (results.any (fun r => r.isNetError)) = false := by
    rw [List.any_eq_false]
    intro r hr
    simp [hres r hr]
  refine ⟨by simp [deleteNodesById, hids, hany], fun n => ?_, fun e => ?_⟩
  · simp [deleteNodesById, hids, hany, List.mem_filter]
  · simp [deleteNodesById, hids, hany, List.mem_filter, and_assoc]

/-- C4 witness: the spec's cascade example — edges E1(A→B), E2(B→C);
deleting node B (all requests resolving) removes B, E1 and E2 and keeps A,
C. -/
theorem deleteNodesById_cascade_witness :
    (⟨10, 1, 2, .positive, none⟩ : EdgeT) ∉
      (deleteNodesById [2] [ReqResult.resolved 204]
        ⟨[⟨1, "A", 1⟩, ⟨2, "B", 1⟩, ⟨3, "C", 1⟩],
         [⟨10, 1, 2, .positive, none⟩, ⟨11, 2, 3, .positive, none⟩]⟩).1.edges ∧
    (⟨11, 2, 3, .positive, none⟩ : EdgeT) ∉
      (deleteNodesById [2] [ReqResult.resolved 204]
        ⟨[⟨1, "A", 1⟩, ⟨2, "B", 1⟩, ⟨3, "C", 1⟩],
         [⟨10, 1, 2, .positive, none⟩, ⟨11, 2, 3, .positive, none⟩]⟩).1.edges ∧
    (⟨2, "B", 1⟩ : NodeT) ∉
      (deleteNodesById [2] [ReqResult.resolved 204]
        ⟨[⟨1, "A", 1⟩, ⟨2, "B", 1⟩, ⟨3, "C", 1⟩],
         [⟨10, 1, 2, .positive, none⟩, ⟨11, 2, 3, .positive, none⟩]⟩).1.nodes ∧
    (⟨1, "A", 1⟩ : NodeT) ∈
      (deleteNodesById [2] [ReqResult.resolved 204]
        ⟨[⟨1, "A", 1⟩, ⟨2, "B", 1⟩, ⟨3, "C", 1⟩],
         [⟨10, 1, 2, .positive, none⟩, ⟨11, 2, 3, .positive, none⟩]⟩).1.nodes := by
  have h := deleteNodesById_cascade [2] [ReqResult.resolved 204]
    ⟨[⟨1, "A", 1⟩, ⟨2, "B", 1⟩, ⟨3, "C", 1⟩],
     [⟨10, 1, 2, .positive, none⟩, ⟨11, 2, 3, .positive, none⟩]⟩
    (by decide) (by intro r hr; simp at hr; simp [hr, ReqResult.isNetError])
  refine ⟨fun hm => ?_, fun hm => ?_, fun hm => ?_, (h.2.1 _).mpr (by decide)⟩
  · exact absurd ((h.2.2 _).mp hm) (by decide)
  · exact absurd ((h.2.2 _).mp hm) (by decide)
  · exact absurd ((h.2.1 _).mp hm) (by decide)

/-- A successful bulk load replaces all four entity collections with the
server's, whatever the prior selections were. -/
theorem applyLoadAll_success_collections (tok : Option String) (d : ServerData)
    (st : AppState) (h : truthyStr tok = true) :
    (applyLoadAll tok (some d) st).users = d.users ∧
    (applyLoadAll tok (some d) st).graphs = d.graphs ∧
    (applyLoadAll tok (some d) st).nodes = d.nodes ∧
    (applyLoadAll tok (some d) st).edges = d.edges := by
  simp only [applyLoadAll, h, Bool.not_true, Bool.false_eq_true, if_false]
  split <;> split <;> exact ⟨rfl, rfl, rfl, rfl⟩

/-- Every canvas edge rebuilt by the view-model effect is the projection of
some backend edge (its id is that edge's id rendered as a string); no
provisional edge survives a rebuild. -/
theorem rebuildRfEdges_from_backend (sel : Option Nat) (nodes : List NodeT)
    (edges : List EdgeT) (q : String) :
    ∀ rfe ∈ rebuildRfEdges sel nodes edges q, ∃ e ∈ edges, rfe.id = toString e.id := by
  intro rfe h
  cases sel with
  | none => simp [rebuildRfEdges] at h
  | some g =>
    by_cases hg : g = 0
    · simp [rebuildRfEdges, hg] at h
    · simp only [rebuildRfEdges] at h
      rw [if_neg hg] at h
      obtain ⟨e, he, rfl⟩ := List.mem_map.mp h
      refine ⟨e, ?_, rfl⟩
      simp only [graphEdges] at he
      rw [if_neg hg] at he
      exact (List.mem_filter.mp he).1

/-- C2: in the settled `onConnect` flow, any non-ok POST status makes the
client reload all four collections from the server, after which every
rendered edge is the projection of a server edge (the optimistic edge is
discarded), and the banner message is the duplicate-specific
"That edge already exists." exactly for status 409 and the generic
status-bearing message otherwise; a rejected POST likewise reloads and
shows the network-error message. -/
theorem onConnect_failure_reloads_and_classifies (tok : String) (htok : tok ≠ "")
    (d : ServerData) (st : AppState) (s t : Nat) (status : Nat) (body : String)
    (junk : EdgeT) (q : String) (hst : statusOk status = false) :
    ((onConnect (some tok) (some d) st ⟨some s, some t⟩ (.reply status body junk)).users = d.users ∧
     (onConnect (some tok) (some d) st ⟨some s, some t⟩ (.reply status body junk)).graphs = d.graphs ∧
     (onConnect (some tok) (some d) st ⟨some s, some t⟩ (.reply status body junk)).nodes = d.nodes ∧
     (onConnect (some tok) (some d) st ⟨some s, some t⟩ (.reply status body junk)).edges = d.edges ∧
     (onConnect (some tok) (some d) st ⟨some s, some t⟩ (.reply status body junk)).error =
       some (if status = 409 then "That edge already exists."
         else "Failed to create edge (" ++ toString status ++ "): " ++ body) ∧
     (∀ rfe ∈ rebuildRfEdges
         (onConnect (some tok) (some d) st ⟨some s, some t⟩ (.reply status body junk)).selectedGraphId
         (onConnect (some tok) (some d) st ⟨some s, some t⟩ (.reply status body junk)).nodes
         (onConnect (some tok) (some d) st ⟨some s, some t⟩ (.reply status body junk)).edges q,
       ∃ e ∈ d.edges, rfe.id = toString e.id)) ∧
    ((onConnect (some tok) (some d) st ⟨some s, some t⟩ .netError).users = d.users ∧
     (onConnect (some tok) (some d) st ⟨some s, some t⟩ .netError).graphs = d.graphs ∧
     (onConnect (some tok) (some d) st ⟨some s, some t⟩ .netError).nodes = d.nodes ∧
     (onConnect (some tok) (some d) st ⟨some s, some t⟩ .netError).edges = d.edges ∧
     (onConnect (some tok) (some d) st ⟨some s, some t⟩ .netError).error =
       some "Failed to create edge (network error)") := by
  have htok' : truthyStr (some tok) = true := by simp [truthyStr, htok]
  have hC := fun st' => applyLoadAll_success_collections (some tok) d st' htok'
  constructor
  · simp only [onConnect, htok', Bool.not_true, Bool.false_eq_true, if_false,
      hst]
    refine ⟨(hC _).1, (hC _).2.1, (hC _).2.2.1, (hC _).2.2.2, trivial, ?_⟩
    intro rfe hmem
    rw [(hC _).2.2.2] at hmem
    exact rebuildRfEdges_from_backend _ _ _ q rfe hmem
  · simp only [onConnect, htok', Bool.not_true, Bool.false_eq_true, if_false]
    exact ⟨(hC _).1, (hC _).2.1, (hC _).2.2.1, (hC _).2.2.2, trivial⟩

/-- C2 witness: a 409 reply on a concrete state — the edge collection
equals the server's reloaded one and the duplicate-specific message is
shown, not the generic one. -/
theorem onConnect_failure_reloads_and_classifies_witness :
    (onConnect (some "tok")
        (some ⟨[], [], [], [⟨7, 1, 2, .positive, none⟩]⟩)
        ⟨[], [], [], [], none, none, none, []⟩
        ⟨some 1, some 2⟩ (.reply 409 "conflict" ⟨0, 0, 0, .positive, none⟩)).edges =
      [⟨7, 1, 2, .positive, none⟩] ∧
    (onConnect (some "tok")
        (some ⟨[], [], [], [⟨7, 1, 2, .positive, none⟩]⟩)
        ⟨[], [], [], [], none, none, none, []⟩
        ⟨some 1, some 2⟩ (.reply 409 "conflict" ⟨0, 0, 0, .positive, none⟩)).error =
      some "That edge already exists." := by
  have h := onConnect_failure_reloads_and_classifies "tok" (by decide)
    ⟨[], [], [], [⟨7, 1, 2, .positive, none⟩]⟩
    ⟨[], [], [], [], none, none, none, []⟩ 1 2 409 "conflict"
    ⟨0, 0, 0, .positive, none⟩ "" (by decide)
  refine ⟨h.1.2.2.2.1, ?_⟩
  have := h.1.2.2.2.2.1
  simpa using this

/-! ### Round-trip of the position-map serialisation -/

/-- Decimal digit characters are digits. -/
theorem digitChar_isDigit {d : Nat} (h : d < 10) : (digitChar d).isDigit = true := by
  interval_cases d <;> decide

/-- `charVal` inverts `digitChar` on decimal digits. -/
theorem charVal_digitChar {d : Nat} (h : d < 10) : charVal (digitChar d) = d := by
  interval_cases d <;> decide

/-- Every character of a printed numeral is a digit. -/
theorem printNatChars_all_digits (n : Nat) :
    ∀ c ∈ printNatChars n, c.isDigit = true := by
  intro c hc
  rw [printNatChars] at hc
  split at hc
  · simp at hc
    subst hc
    decide
  · obtain ⟨d, hd, rfl⟩ := List.mem_map.mp hc
    exact digitChar_isDigit (Nat.digits_lt_base (by norm_num) (List.mem_reverse.mp hd))

/-- A printed numeral is never empty. -/
theorem printNatChars_ne_nil (n : Nat) : printNatChars n ≠ [] := by
  rw [printNatChars]
  split
  · simp
  · rename_i hn
    simp only [ne_eq, List.map_eq_nil_iff, List.reverse_eq_nil_iff]
    exact Nat.digits_ne_nil_iff_ne_zero.mpr hn

/-- Splitting a list at an all-`p` prefix whose continuation starts with a
non-`p` character. -/
theorem takeWhile_append_all {p : Char → Bool} :
    ∀ (l r : List Char), (∀ c ∈ l, p c = true) → (∀ c ∈ r.head?, p c = false) →
      (l ++ r).takeWhile p = l ∧ (l ++ r).dropWhile p = r := by
  intro l
  induction l with
  | nil =>
    intro r _ hr
    cases r with
    | nil => exact ⟨rfl, rfl⟩
    | cons c cs =>
      have hc : p c = false := hr c (by simp)
      simp [List.takeWhile_cons, List.dropWhile_cons, hc]
  | cons a l ih =>
    intro r hl hr
    have ha : p a = true := hl a (by simp)
    obtain ⟨h1, h2⟩ := ih r (fun c hc => hl c (by simp [hc])) hr
    simp [List.takeWhile_cons, List.dropWhile_cons, ha, h1, h2]

/-- The left-to-right base-10 accumulation equals `Nat.ofDigits` on the
little-endian digit list. -/
theorem foldr_base10_eq_ofDigits (l : List Nat) :
    l.foldr (fun d a => a * 10 + d) 0 = Nat.ofDigits 10 l := by
  induction l with
  | nil => simp [Nat.ofDigits]
  | cons d l ih =>
    simp only [List.foldr_cons, Nat.ofDigits_cons, ih]
    ring

/-- Folding the digit-value accumulator over a printed numeral recovers the
number. -/
theorem foldl_printNatChars (n : Nat) :
    (printNatChars n).foldl (fun a c => a * 10 + charVal c) 0 = n := by
  rw [printNatChars]
  split
  · rename_i h
    subst h
    decide
  · rw [List.foldl_map]
    rw [List.foldl_ext _ (fun (a : Nat) (d : Nat) => a * 10 + d) 0
      (fun a d hd => by
        rw [charVal_digitChar (Nat.digits_lt_base (by norm_num) (List.mem_reverse.mp hd))])]
    rw [List.foldl_reverse]
    rw [foldr_base10_eq_ofDigits]
    exact Nat.ofDigits_digits 10 n

/-- Lexing a printed numeral followed by a non-digit continuation yields the
number and the continuation. -/
theorem parseNatTok_print (n : Nat) (r : List Char)
    (hr : ∀ c ∈ r.head?, c.isDigit = false) :
    parseNatTok (printNatChars n ++ r) = some (n, r) := by
  obtain ⟨h1, h2⟩ := takeWhile_append_all (printNatChars n) r (printNatChars_all_digits n) hr
  have hempty : (printNatChars n).isEmpty = false :=
    List.isEmpty_eq_false.mpr (printNatChars_ne_nil n)
  simp only [parseNatTok, h1, h2, hempty, Bool.false_eq_true, if_false,
    foldl_printNatChars]

/-- Lexing a printed integer followed by a non-digit continuation. -/
theorem parseIntTok_print (i : Int) (r : List Char)
    (hr : ∀ c ∈ r.head?, c.isDigit = false) :
    parseIntTok (printIntChars i ++ r) = some (i, r) := by
  rw [printIntChars]
  split
  · rename_i hi
    rw [List.cons_append]
    show (if '-' = '-' then
        (parseNatTok (printNatChars i.natAbs ++ r)).map (fun p => (-(p.1 : Int), p.2))
      else
        (parseNatTok ('-' :: (printNatChars i.natAbs ++ r))).map
          (fun p => ((p.1 : Int), p.2))) = some (i, r)
    rw [if_pos rfl, parseNatTok_print _ _ hr]
    have hv : -((i.natAbs : Int)) = i := by omega
    show (some (-(i.natAbs : Int), r) : Option (Int × List Char)) = some (i, r)
    rw [hv]
  · rename_i hi
    have hne := printNatChars_ne_nil i.toNat
    obtain ⟨c, cs, hcs⟩ : ∃ c cs, printNatChars i.toNat = c :: cs := by
      cases h : printNatChars i.toNat with
      | nil => exact absurd h hne
      | cons c cs => exact ⟨c, cs, rfl⟩
    have hcd : c.isDigit = true :=
      printNatChars_all_digits i.toNat c (by rw [hcs]; simp)
    have hcne : ¬ (c = '-') := by
      intro he
      rw [he] at hcd
      exact absurd hcd (by decide)
    rw [hcs, List.cons_append]
    show (if c = '-' then
        (parseNatTok (cs ++ r)).map (fun p => (-(p.1 : Int), p.2))
      else
        (parseNatTok (c :: (cs ++ r))).map (fun p => ((p.1 : Int), p.2))) = some (i, r)
    rw [if_neg hcne, ← List.cons_append, ← hcs, parseNatTok_print _ _ hr]
    have hv : ((i.toNat : Int)) = i := by omega
    show (some ((i.toNat : Int), r) : Option (Int × List Char)) = some (i, r)
    rw [hv]

/-- `parseNatTok` on a printed numeral followed by a quote. -/
theorem parseNatTok_print_quote (n : Nat) (r : List Char) :
    parseNatTok (printNatChars n ++ '"' :: r) = some (n, '"' :: r) :=
  parseNatTok_print n _ (by intro c hc; simp at hc; subst hc; decide)

/-- `parseIntTok` on a printed integer followed by a comma. -/
theorem parseIntTok_print_comma (i : Int) (r : List Char) :
    parseIntTok (printIntChars i ++ ',' :: r) = some (i, ',' :: r) :=
  parseIntTok_print i _ (by intro c hc; simp at hc; subst hc; decide)

/-- `parseIntTok` on a printed integer followed by a closing brace. -/
theorem parseIntTok_print_brace (i : Int) (r : List Char) :
    parseIntTok (printIntChars i ++ '}' :: r) = some (i, '}' :: r) :=
  parseIntTok_print i _ (by intro c hc; simp at hc; subst hc; decide)

/-- Parsing a printed position-map entry consumes exactly the entry. -/
theorem parseEntry_print (k : Nat) (p : Pos) (r : List Char) :
    parseEntry (printEntryChars k p ++ r) = some ((k, p), r) := by
  simp only [printEntryChars, List.cons_append, List.append_assoc, List.nil_append]
  simp [parseEntry, parseNatTok_print_quote, parseIntTok_print_comma,
    parseIntTok_print_brace]

/-- Each printed entry contributes at least one character. -/
theorem le_length_printEntriesChars (m : PosMap) :
    m.length ≤ (printEntriesChars m).length := by
  induction m with
  | nil => simp [printEntriesChars]
  | cons e es ih =>
    cases es with
    | nil =>
      simp [printEntriesChars, printEntryChars]
    | cons e2 es2 =>
      simp only [printEntriesChars, List.length_append, List.length_cons] at *
      omega

/-- Parsing a printed non-empty entry list up to the closing brace yields
the list, for any fuel bounded below by the entry count. -/
theorem parseEntriesAux_print (m : PosMap) :
    ∀ (fuel : Nat) (r : List Char), m ≠ [] → m.length ≤ fuel →
      parseEntriesAux fuel (printEntriesChars m ++ ('}' :: r)) = some (m, r) := by
  induction m with
  | nil =>
    intro fuel r h _
    exact absurd rfl h
  | cons e es ih =>
    intro fuel r _ hlen
    obtain ⟨f, rfl⟩ : ∃ f, fuel = f + 1 := by
      cases fuel with
      | zero => simp at hlen
      | succ f => exact ⟨f, rfl⟩
    cases es with
    | nil =>
      simp [printEntriesChars, parseEntriesAux, parseEntry_print e.1 e.2]
    | cons e2 es2 =>
      simp only [printEntriesChars, List.append_assoc, List.cons_append,
        parseEntriesAux, parseEntry_print e.1 e.2]
      rw [ih f r (by simp) (by simp only [List.length_cons] at hlen ⊢; omega)]

/-- `JSON.parse` inverts `JSON.stringify` on position maps. -/
theorem parsePosMap_stringify (m : PosMap) :
    parsePosMap (stringifyPosMap m) = some m := by
  rw [stringifyPosMap, parsePosMap]
  show parsePosMapChars ('{' :: (printEntriesChars m ++ ['}'])) = some m
  cases m with
  | nil => rfl
  | cons e es =>
    have hlen := le_length_printEntriesChars (e :: es)
    have hne : printEntriesChars (e :: es) ++ ['}'] ≠ ['}'] := by
      intro h
      have h' := congrArg List.length h
      simp only [List.length_append, List.length_cons, List.length_nil] at h' hlen
      omega
    simp only [parsePosMapChars]
    rw [if_neg hne]
    rw [parseEntriesAux_print (e :: es) _ [] (by simp)
      (by simp only [List.length_append, List.length_cons] at hlen ⊢; omega)]

/-- C5: position persistence round-trips — saving a position map for graph
`G` and then loading positions for `G` from the same storage returns the
identical map (hence the same `\x7bx,y\x7d` for every node id present at save
time). -/
theorem positions_roundtrip (g : Nat) (m : PosMap) (store : Store) :
    loadPositions g (savePositions g m store) = m := by
  rw [savePositions, loadPositions, storeSet, storeGet]
  rw [List.find?_cons_of_pos _ (by simp)]
  simp [parsePosMap_stringify]

/-- C6: "group nodes" is deterministic — with a selected graph and `n > 0`
canvas nodes it moves the node at index `i` to
`(200 + (i % cols) * 120, 200 + (i / cols) * 120)` where `cols` is the
ceiling of the square root of `n` (characterised arithmetically: the least
`k` with `n ≤ k²`), and the very same call writes the resulting position
map to storage through `savePositions` — no debounce timer is involved. -/
theorem groupNodesCenter_grid (g : Nat) (ns : List RFNodeM) (store : Store)
    (hg : g ≠ 0) (hne : ns ≠ []) :
    (groupNodesCenter (some g) ns store).1.length = ns.length ∧
    (∀ i, i < ns.length →
      ((groupNodesCenter (some g) ns store).1.getD i ⟨0, "", 0, 0⟩).x =
        200 + ((i % ceilSqrt ns.length : Nat) : Int) * 120 ∧
      ((groupNodesCenter (some g) ns store).1.getD i ⟨0, "", 0, 0⟩).y =
        200 + ((i / ceilSqrt ns.length : Nat) : Int) * 120) ∧
    (groupNodesCenter (some g) ns store).2 =
      savePositions g (posMapOf (groupNodesCenter (some g) ns store).1) store ∧
    (ns.length ≤ ceilSqrt ns.length * ceilSqrt ns.length ∧
      (ceilSqrt ns.length - 1) * (ceilSqrt ns.length - 1) < ns.length) := by
  have hempty : ns.isEmpty = false := by
    cases ns with
    | nil => exact absurd rfl hne
    | cons a l => rfl
  have hn0 : 0 < ns.length := List.length_pos.mpr hne
  have hout : groupNodesCenter (some g) ns store =
      (ns.enum.map (fun ie =>
        { ie.2 with
          x := 200 + ((ie.1 % ceilSqrt ns.length : Nat) : Int) * 120
          y := 200 + ((ie.1 / ceilSqrt ns.length : Nat) : Int) * 120 }),
       savePositions g (posMapOf (ns.enum.map (fun ie =>
        { ie.2 with
          x := 200 + ((ie.1 % ceilSqrt ns.length : Nat) : Int) * 120
          y := 200 + ((ie.1 / ceilSqrt ns.length : Nat) : Int) * 120 }))) store) := by
    simp [groupNodesCenter, hg, hempty]
  have hlen : (groupNodesCenter (some g) ns store).1.length = ns.length := by
    rw [hout]
    simp [List.enum_length]
  refine ⟨hlen, ?_, ?_, ?_⟩
  · intro i hi
    rw [hout]
    constructor
    · rw [List.getD_eq_getElem _ _ (by simpa [List.enum_length] using hi)]
      simp [List.getElem_map, List.getElem_enum]
    · rw [List.getD_eq_getElem _ _ (by simpa [List.enum_length] using hi)]
      simp [List.getElem_map, List.getElem_enum]
  · rw [hout]
  · rw [ceilSqrt]
    split
    · rename_i h
      obtain ⟨t, ht⟩ : ∃ t, Nat.sqrt ns.length = t + 1 := by
        have : 0 < Nat.sqrt ns.length := Nat.sqrt_pos.mpr hn0
        exact ⟨Nat.sqrt ns.length - 1, by omega⟩
      rw [ht] at h ⊢
      simp only [Nat.add_sub_cancel]
      have hsq : (t + 1) * (t + 1) = t * t + 2 * t + 1 := by ring
      omega
    · rename_i h
      simp only [Nat.add_sub_cancel]
      have h1 : Nat.sqrt ns.length * Nat.sqrt ns.length ≤ ns.length := by
        have := Nat.sqrt_le' ns.length
        simpa [pow_two] using this
      have h2 : ns.length < (Nat.sqrt ns.length + 1) * (Nat.sqrt ns.length + 1) := by
        have := Nat.lt_succ_sqrt' ns.length
        simpa [pow_two, Nat.succ_eq_add_one] using this
      omega

/-- C6 witness: three nodes on graph 1 — `cols = ⌈√3⌉ = 2`, the third node
(index 2) lands at `(200, 320)`, and the grouped map is saved at once. -/
theorem groupNodesCenter_grid_witness :
    ((groupNodesCenter (some 1) [⟨1, "a", 0, 0⟩, ⟨2, "b", 5, 5⟩, ⟨3, "c", 9, 9⟩]
        []).1.getD 2 ⟨0, "", 0, 0⟩).x = 200 ∧
    ((groupNodesCenter (some 1) [⟨1, "a", 0, 0⟩, ⟨2, "b", 5, 5⟩, ⟨3, "c", 9, 9⟩]
        []).1.getD 2 ⟨0, "", 0, 0⟩).y = 320 ∧
    (groupNodesCenter (some 1) [⟨1, "a", 0, 0⟩, ⟨2, "b", 5, 5⟩, ⟨3, "c", 9, 9⟩]
        []).2 =
      savePositions 1
        (posMapOf (groupNodesCenter (some 1)
          [⟨1, "a", 0, 0⟩, ⟨2, "b", 5, 5⟩, ⟨3, "c", 9, 9⟩] []).1) [] := by
  have hsqrt3 : Nat.sqrt 3 = 1 := by
    have h1 : 1 ≤ Nat.sqrt 3 := Nat.le_sqrt.mpr (by norm_num)
    have h2 : Nat.sqrt 3 < 2 := Nat.sqrt_lt.mpr (by norm_num)
    omega
  have hc : ceilSqrt 3 = 2 := by
    rw [ceilSqrt, hsqrt3]
    norm_num
  have h := groupNodesCenter_grid 1 [⟨1, "a", 0, 0⟩, ⟨2, "b", 5, 5⟩, ⟨3, "c", 9, 9⟩]
    [] (by decide) (by decide)
  obtain ⟨hx, hy⟩ := h.2.1 2 (by norm_num)
  refine ⟨?_, ?_, h.2.2.1⟩
  · rw [hx]
    norm_num [hc]
  · rw [hy]
    norm_num [hc]

end MatLogic
